import Mathlib

/-!
Shallow embedding of the player-tracking analytics core of the repository:
backend/routes/tracking_analysis.py (the pandas variant) and
backend/routes/tracking_analysis_simple.py (the plain-Python variant).
Python floats are modelled as rationals, Python ints as integers; CSV rows
become the structure Record below.
-/

attribute [local semireducible] List.merge List.mergeSort Rat.mul Rat.inv Rat.sub Rat.add

/-- One detection row of the tracking CSV. Both variants parse exactly these
twelve columns (tracking_analysis.py line 32, tracking_analysis_simple.py
lines 24-38). -/
structure Record where
  frame_id : ℤ
  player_id : ℤ
  timestamp_s : ℚ
  x1 : ℚ
  y1 : ℚ
  x2 : ℚ
  y2 : ℚ
  cx : ℚ
  cy : ℚ
  w : ℚ
  h : ℚ
  confidence : ℚ
deriving DecidableEq

/-- Sort key of process_data (tracking_analysis.py line 38) and of the simple
variant init (tracking_analysis_simple.py line 42): the tuple
(frame_id, timestamp_s, player_id) compared lexicographically. -/
def recLE (a b : Record) : Bool :=
  decide (a.frame_id < b.frame_id ∨ (a.frame_id = b.frame_id ∧
    (a.timestamp_s < b.timestamp_s ∨
      (a.timestamp_s = b.timestamp_s ∧ a.player_id ≤ b.player_id))))

/-- The dataset after ingestion: rows sorted by (frame_id, timestamp_s,
player_id). Modelled with a stable sort, matching the guaranteed-stable
CPython list sort of the simple variant. -/
def sortRecords (l : List Record) : List Record := l.mergeSort recLE

/-- Per-entity trajectory: the rows of one player in dataset order, as produced
by filtering the sorted dataset (df[df.player_id == player_id]). -/
def trajectoryOf (l : List Record) (pid : ℤ) : List Record :=
  (sortRecords l).filter (fun r => r.player_id == pid)

def c9a : Record :=
  { frame_id := 4, player_id := 1, timestamp_s := 2, x1 := 0, y1 := 0,
    x2 := 2, y2 := 2, cx := 1, cy := 1, w := 2, h := 2, confidence := 9/10 }

def c9b : Record :=
  { frame_id := 4, player_id := 1, timestamp_s := 2, x1 := 1, y1 := 1,
    x2 := 3, y2 := 3, cx := 2, cy := 2, w := 2, h := 2, confidence := 8/10 }

def c9c : Record :=
  { frame_id := 1, player_id := 2, timestamp_s := 0, x1 := 0, y1 := 0,
    x2 := 2, y2 := 2, cx := 1, cy := 1, w := 2, h := 2, confidence := 7/10 }

def c9data : List Record := [c9a, c9b] ++ [c9c]

/-- Helper to build a record with the given frame, player, timestamp, center
and confidence; the box fields default to a fixed unit box. -/
def mkRec (f pid : ℤ) (ts cxv cyv conf : ℚ) : Record :=
  { frame_id := f, player_id := pid, timestamp_s := ts, x1 := 0, y1 := 0,
    x2 := 2, y2 := 2, cx := cxv, cy := cyv, w := 2, h := 2, confidence := conf }

/-- Sort key of the per-player re-sort inside get_player_stats and
get_player_movement_path (tracking_analysis.py lines 52 and 182): the tuple
(frame_id, timestamp_s) compared lexicographically. -/
def recLE2 (a b : Record) : Bool :=
  decide (a.frame_id < b.frame_id ∨
    (a.frame_id = b.frame_id ∧ a.timestamp_s ≤ b.timestamp_s))

/-- Rows of one player as the pandas variant uses them: filtered from the
sorted dataset, then re-sorted by (frame_id, timestamp_s)
(tracking_analysis.py lines 51-52). -/
def playerData (l : List Record) (pid : ℤ) : List Record :=
  ((sortRecords l).filter (fun r => r.player_id == pid)).mergeSort recLE2

/-- Consecutive index pairs (i-1, i) of the loop for i in range(1, len)
(tracking_analysis.py line 62, simple variant line 60). -/
def consecutivePairs (l : List Record) : List (Record × Record) := l.zip l.tail

/-- Squared Euclidean displacement between two consecutive detections
(the radicand of tracking_analysis.py line 67). -/
def dist2 (a b : Record) : ℚ := (b.cx - a.cx) ^ 2 + (b.cy - a.cy) ^ 2

/-- Euclidean displacement math.sqrt((dx)**2 + (dy)**2)
(tracking_analysis.py line 67, simple variant line 65). -/
noncomputable def recDist (a b : Record) : ℝ := Real.sqrt (dist2 a b)

/-- Elapsed time between two consecutive detections (tracking_analysis.py
line 71, simple variant line 69). -/
def dtOf (p : Record × Record) : ℚ := p.2.timestamp_s - p.1.timestamp_s

/-- The distances list: one displacement appended per consecutive pair,
unconditionally (tracking_analysis.py line 68). -/
noncomputable def distancesOf (l : List Record) : List ℝ :=
  (consecutivePairs l).map (fun p => recDist p.1 p.2)

/-- The speeds list: distance / time_diff appended only when time_diff > 0
(tracking_analysis.py lines 72-74, simple variant lines 70-72). -/
noncomputable def speedsOf (l : List Record) : List ℝ :=
  (consecutivePairs l).filterMap (fun p =>
    if 0 < dtOf p then some (recDist p.1 p.2 / ((dtOf p : ℚ) : ℝ)) else none)

/-- total_distance = sum(distances) if distances else 0.0; the sum of the
empty list is 0 as well (tracking_analysis.py line 77). -/
noncomputable def totalDistance (l : List Record) : ℝ := (distancesOf l).sum

/-- avg_speed = np.mean(speeds) if speeds else 0.0 (tracking_analysis.py
line 78, simple variant line 76). -/
noncomputable def avgSpeed (l : List Record) : ℝ :=
  if (speedsOf l).isEmpty then 0
  else (speedsOf l).sum / ((speedsOf l).length : ℝ)

/-- max_speed = max(speeds) if speeds else 0.0 (tracking_analysis.py line 79,
simple variant line 77). -/
noncomputable def maxSpeed (l : List Record) : ℝ :=
  match speedsOf l with
  | [] => 0
  | s :: rest => rest.foldl max s

def c1a : Record := mkRec 1 5 0 0 0 (9/10)

def c1b : Record := mkRec 2 5 0 3 4 (8/10)

def c1c : Record := mkRec 3 5 1 6 8 (7/10)

def c1data : List Record := [c1a, c1b, c1c]

/-- Dataset-wide maximum frame id (tracking_analysis.py line 82, simple
variant line 80). Folding from 0 agrees with the Python max on every dataset
whose frame ids are non-negative, and the positivity guard below behaves
identically in all cases. -/
def maxFrameId (l : List Record) : ℤ := (l.map (fun r => r.frame_id)).foldl max 0

/-- frame_count = len(player_data) (tracking_analysis.py line 55). -/
def frameCount (l : List Record) (pid : ℤ) : ℕ := (playerData l pid).length

/-- participation_score = frame_count / max frame id when that max is
positive, else 0.0 (tracking_analysis.py line 82, simple variant lines
80-81). -/
def participationScore (l : List Record) (pid : ℤ) : ℚ :=
  if 0 < maxFrameId l then (frameCount l pid : ℚ) / (maxFrameId l : ℚ) else 0

def c4data : List Record := [mkRec 0 7 0 0 0 (9/10), mkRec 1 7 1 1 1 (9/10)]

def c4wdata : List Record := [mkRec 1 7 0 0 0 (9/10), mkRec 2 7 1 1 1 (9/10)]

/-- Required column list of process_data (tracking_analysis.py line 32): all
twelve columns, the centers, widths and heights included. -/
def requiredColumns : List String :=
  ["frame_id", "player_id", "timestamp_s", "x1", "y1", "x2", "y2",
   "cx", "cy", "w", "h", "confidence"]

/-- The list comprehension of tracking_analysis.py line 33: every required
column absent from the header, in required-column order. -/
def missingColumns (cols : List String) : List String :=
  requiredColumns.filter (fun c => !(cols.contains c))

/-- Column validation of process_data (tracking_analysis.py lines 33-35): a
ValueError naming the whole missing-column list when it is non-empty. -/
def validateColumns (cols : List String) : Except (List String) Unit :=
  if missingColumns cols = [] then Except.ok () else Except.error (missingColumns cols)

/-- The eight columns the spec calls required (its entity_id is the source
column player_id); the spec calls cx, cy, w, h optional. -/
def specRequiredColumns : List String :=
  ["frame_id", "player_id", "timestamp_s", "x1", "y1", "x2", "y2", "confidence"]

/-- Coordinate scaling of generate_heatmap (tracking_analysis.py lines
124-125): (c - lo) / (hi - lo) * span. The source has no guard for hi = lo;
there the float division has a zero denominator and yields NaN under the
numpy semantics of the operands, modelled here as none. -/
def scaleCoord (c lo hi span : ℚ) : Option ℚ :=
  if hi - lo = 0 then none else some ((c - lo) / (hi - lo) * span)

/-- The four coordinate extrema of a row list (series min and max over cx and
cy; none on an empty list, where the Python min and max have no value). -/
structure Extrema where
  xMin : Option ℚ
  xMax : Option ℚ
  yMin : Option ℚ
  yMax : Option ℚ
deriving DecidableEq

def extremaOf (l : List Record) : Extrema :=
  { xMin := (l.map (fun r => r.cx)).min?, xMax := (l.map (fun r => r.cx)).max?,
    yMin := (l.map (fun r => r.cy)).min?, yMax := (l.map (fun r => r.cy)).max? }

/-- Extrema used by the pandas generate_heatmap (tracking_analysis.py lines
110-112): computed from self.df, the full sorted dataset, even though the
call is for one player. -/
def heatmapExtremaFull (l : List Record) (pid : ℤ) : Extrema :=
  extremaOf (sortRecords l)

/-- Extrema used by the simple variant generate_player_heatmap
(tracking_analysis_simple.py lines 232-237): computed from the requested
player rows only. -/
def heatmapExtremaSimple (l : List Record) (pid : ℤ) : Extrema :=
  extremaOf ((sortRecords l).filter (fun r => r.player_id == pid))

def c5data : List Record := [mkRec 1 1 0 0 0 (9/10), mkRec 2 2 1 10 10 (9/10)]

/-- Maximum entry of a grid, folded from 0 (heatmap.max() at
tracking_analysis.py line 143; on the non-negative grids this pipeline
produces, the fold equals the numpy maximum). -/
def gridMax (g : List (List ℚ)) : ℚ := g.flatten.foldl max 0

/-- Normalization step of generate_heatmap (tracking_analysis.py lines
142-145): divide every cell by the grid maximum when it is positive,
otherwise return the grid unchanged. -/
def normalizeGrid (g : List (List ℚ)) : List (List ℚ) :=
  if 0 < gridMax g then g.map (fun row => row.map (fun x => x / gridMax g)) else g

def c2grid : List (List ℚ) := [[1, 2], [0, 3]]

/-- Grid parameters of generate_heatmap (tracking_analysis.py line 102):
field_length, field_width and the two bin counts nx, ny. -/
structure HeatmapParams where
  fieldLength : ℚ
  fieldWidth : ℚ
  nx : ℕ
  ny : ℕ
deriving DecidableEq

/-- np.linspace(0, stop, num): num evenly spaced points from 0 to stop
(tracking_analysis.py lines 115-116). -/
def linspace (stop : ℚ) (num : ℕ) : List ℚ :=
  if num = 1 then [0]
  else (List.range num).map (fun i => (i : ℚ) * stop / ((num : ℚ) - 1))

/-- np.digitize over an increasing bin list: the number of bin edges at most
x; NaN (none) sorts after every edge and gets the full length
(tracking_analysis.py lines 128-129). -/
def digitize (x : Option ℚ) (bins : List ℚ) : ℕ :=
  match x with
  | none => bins.length
  | some v => (bins.filter (fun b => decide (b ≤ v))).length

/-- Scaled x coordinate of one record (tracking_analysis.py line 124). -/
def scaledX (ext : Extrema) (span : ℚ) (r : Record) : Option ℚ :=
  match ext.xMin, ext.xMax with
  | some lo, some hi => scaleCoord r.cx lo hi span
  | _, _ => none

/-- Scaled y coordinate of one record (tracking_analysis.py line 125). -/
def scaledY (ext : Extrema) (span : ℚ) (r : Record) : Option ℚ :=
  match ext.yMin, ext.yMax with
  | some lo, some hi => scaleCoord r.cy lo hi span
  | _, _ => none

/-- heatmap[y_idx][x_idx] += confidence (tracking_analysis.py line 134). -/
def bumpGrid (g : List (List ℚ)) (yi xi : ℕ) (c : ℚ) : List (List ℚ) :=
  g.set yi ((g.getD yi []).set xi ((g.getD yi []).getD xi 0 + c))

/-- One iteration of the binning loop (tracking_analysis.py lines 122-134):
digitize the scaled point, subtract one, accumulate when in bounds. -/
def binPoint (p : HeatmapParams) (xBins yBins : List ℚ) (ext : Extrema)
    (g : List (List ℚ)) (r : Record) : List (List ℚ) :=
  let xi : ℤ := (digitize (scaledX ext p.fieldLength r) xBins : ℤ) - 1
  let yi : ℤ := (digitize (scaledY ext p.fieldWidth r) yBins : ℤ) - 1
  if 0 ≤ xi ∧ xi < (p.nx : ℤ) ∧ 0 ≤ yi ∧ yi < (p.ny : ℤ) then
    bumpGrid g yi.toNat xi.toNat r.confidence
  else g

/-- The binned, confidence-weighted occupancy grid of one player
(tracking_analysis.py lines 114-134). -/
def binGrid (rows : List Record) (ext : Extrema) (p : HeatmapParams) :
    List (List ℚ) :=
  rows.foldl
    (binPoint p (linspace p.fieldLength p.nx) (linspace p.fieldWidth p.ny) ext)
    (List.replicate p.ny (List.replicate p.nx 0))

/-- generate_heatmap without the rendering tail (tracking_analysis.py lines
102-145): filter the player rows, fail when there are none, otherwise bin,
smooth and normalize. The smoothing call goes to
scipy.ndimage.gaussian_filter, an external library function, abstracted here
as the argument smooth. -/
def generateHeatmap (smooth : List (List ℚ) → List (List ℚ))
    (l : List Record) (pid : ℤ) (p : HeatmapParams) :
    Except String (List (List ℚ)) :=
  let rows := (sortRecords l).filter (fun r => r.player_id == pid)
  if rows.isEmpty then Except.error "No data found for player"
  else Except.ok (normalizeGrid (smooth (binGrid rows (heatmapExtremaFull l pid) p)))

def c8data : List Record := [mkRec 1 1 0 0 0 (9/10)]

/-- One row of the movement-path output (tracking_analysis.py lines
190-196). -/
structure PathEntry where
  frame_id : ℤ
  timestamp : ℚ
  x : ℤ
  y : ℤ
  confidence : ℚ
deriving DecidableEq

/-- Python int() applied to a float: truncation toward zero. -/
def pyInt (q : ℚ) : ℤ := if q < 0 then ⌈q⌉ else ⌊q⌋

/-- One path row (tracking_analysis.py lines 190-196): frame_id, timestamp
and confidence pass through, the center coordinates go through int(). -/
def pathEntry (r : Record) : PathEntry :=
  { frame_id := r.frame_id, timestamp := r.timestamp_s,
    x := pyInt r.cx, y := pyInt r.cy, confidence := r.confidence }

/-- get_player_movement_path (tracking_analysis.py lines 179-202): the sorted
player rows projected to path entries; an error when the player has none. -/
def movementPath (l : List Record) (pid : ℤ) : Except String (List PathEntry) :=
  let rows := playerData l pid
  if rows.isEmpty then Except.error "No data found for player"
  else Except.ok (rows.map pathEntry)

def c10a : Record := mkRec 1 3 0 (5/2) (7/2) (9/10)

def c10b : Record := mkRec 2 3 1 4 5 (8/10)

def c10data : List Record := [c10a, c10b]

/-! ### Theorems -/

theorem recLE_total (a b : Record) : recLE a b || recLE b a := by
  simp only [recLE, Bool.or_eq_true, decide_eq_true_iff]
  rcases lt_trichotomy a.frame_id b.frame_id with hf | hf | hf
  · exact Or.inl (Or.inl hf)
  · rcases lt_trichotomy a.timestamp_s b.timestamp_s with ht | ht | ht
    · exact Or.inl (Or.inr ⟨hf, Or.inl ht⟩)
    · rcases le_total a.player_id b.player_id with hp | hp
      · exact Or.inl (Or.inr ⟨hf, Or.inr ⟨ht, hp⟩⟩)
      · exact Or.inr (Or.inr ⟨hf.symm, Or.inr ⟨ht.symm, hp⟩⟩)
    · exact Or.inr (Or.inr ⟨hf.symm, Or.inl ht⟩)
  · exact Or.inr (Or.inl hf)

theorem recLE_trans (a b c : Record) (hab : recLE a b) (hbc : recLE b c) :
    recLE a c := by
  simp only [recLE, decide_eq_true_iff] at hab hbc ⊢
  rcases hab with hf | ⟨hf, hrest⟩
  · rcases hbc with hf2 | ⟨hf2, _⟩
    · exact Or.inl (hf.trans hf2)
    · exact Or.inl (lt_of_lt_of_eq hf hf2)
  · rcases hbc with hf2 | ⟨hf2, hrest2⟩
    · exact Or.inl (lt_of_eq_of_lt hf hf2)
    · refine Or.inr ⟨hf.trans hf2, ?_⟩
      rcases hrest with ht | ⟨ht, hp⟩
      · rcases hrest2 with ht2 | ⟨ht2, _⟩
        · exact Or.inl (ht.trans ht2)
        · exact Or.inl (lt_of_lt_of_eq ht ht2)
      · rcases hrest2 with ht2 | ⟨ht2, hp2⟩
        · exact Or.inl (lt_of_eq_of_lt ht ht2)
        · exact Or.inr ⟨ht.trans ht2, hp.trans hp2⟩

/-- C9: for every dataset, each entity trajectory is sorted by
(frame_id, timestamp_s); records of the entity whose (frame_id, timestamp_s)
keys tie keep their original input order (stability); and sorting the sorted
dataset again changes nothing (the assembler is deterministic and idempotent
on the same input). -/
theorem assembler_sorted_stable_idempotent (l : List Record) (pid : ℤ) :
    (trajectoryOf l pid).Pairwise (fun a b =>
      a.frame_id < b.frame_id ∨
        (a.frame_id = b.frame_id ∧ a.timestamp_s ≤ b.timestamp_s))
    ∧ (∀ a b : Record, a.player_id = pid → b.player_id = pid →
        a.frame_id = b.frame_id → a.timestamp_s = b.timestamp_s →
        List.Sublist [a, b] l → List.Sublist [a, b] (trajectoryOf l pid))
    ∧ sortRecords (sortRecords l) = sortRecords l := by
  refine ⟨?_, ?_, ?_⟩
  · have hs : (sortRecords l).Pairwise (fun a b => recLE a b) :=
      List.sorted_mergeSort recLE_trans recLE_total l
    have hf := hs.filter (fun r => r.player_id == pid)
    refine hf.imp ?_
    intro a b hab
    have hab' := decide_eq_true_iff.mp hab
    rcases hab' with hlt | ⟨heq, hrest⟩
    · exact Or.inl hlt
    · rcases hrest with ht | ⟨ht, _⟩
      · exact Or.inr ⟨heq, le_of_lt ht⟩
      · exact Or.inr ⟨heq, le_of_eq ht⟩
  · intro a b hpa hpb hfe hte hsub
    have hle : recLE a b := by
      simp only [recLE, decide_eq_true_iff]
      exact Or.inr ⟨hfe, Or.inr ⟨hte, le_of_eq (hpa.trans hpb.symm)⟩⟩
    have h1 : List.Sublist [a, b] (sortRecords l) :=
      List.pair_sublist_mergeSort recLE_trans recLE_total hle hsub
    have h2 := h1.filter (fun r => r.player_id == pid)
    have ha : (a.player_id == pid) = true := beq_iff_eq.mpr hpa
    have hb : (b.player_id == pid) = true := beq_iff_eq.mpr hpb
    simpa [List.filter_cons, ha, hb, trajectoryOf] using h2
  · exact List.mergeSort_of_sorted (List.sorted_mergeSort recLE_trans recLE_total l)

theorem assembler_sorted_stable_idempotent_witness :
    List.Sublist [c9a, c9b] (trajectoryOf c9data 1)
    ∧ sortRecords (sortRecords c9data) = sortRecords c9data :=
  ⟨(assembler_sorted_stable_idempotent c9data 1).2.1 c9a c9b (by decide)
      (by decide) (by decide) (by decide) (List.sublist_append_left [c9a, c9b] [c9c]),
    (assembler_sorted_stable_idempotent c9data 1).2.2⟩

theorem filterMap_ite_eq_filter_map {α β : Type} (P : α → Prop) [DecidablePred P]
    (f : α → β) (l : List α) :
    (l.filterMap fun a => if P a then some (f a) else none) =
      (l.filter fun a => decide (P a)).map f := by
  induction l with
  | nil => rfl
  | cons a t ih =>
    by_cases h : P a
    · simp [List.filterMap_cons, List.filter_cons, h, ih]
    · simp [List.filterMap_cons, List.filter_cons, h, ih]

/-- C1: for a trajectory of at least two records, the speed list holds exactly
one sample d / dt per consecutive pair whose elapsed time dt is strictly
positive (pairs with dt zero or negative contribute no sample), the distance
list holds one Euclidean displacement per consecutive pair regardless of dt,
total_distance sums the displacements of all consecutive pairs, and both
average and maximum speed are 0 when no speed sample exists. -/
theorem speed_samples_only_positive_dt (l : List Record) (hlen : 2 ≤ l.length) :
    speedsOf l =
      ((consecutivePairs l).filter (fun p => decide (0 < dtOf p))).map
        (fun p => recDist p.1 p.2 / ((dtOf p : ℚ) : ℝ))
    ∧ (distancesOf l).length = l.length - 1
    ∧ totalDistance l = ((consecutivePairs l).map (fun p => recDist p.1 p.2)).sum
    ∧ (speedsOf l = [] → avgSpeed l = 0 ∧ maxSpeed l = 0) := by
  refine ⟨filterMap_ite_eq_filter_map _ _ _, ?_, rfl, ?_⟩
  · have h1 : (consecutivePairs l).length = min l.length (l.length - 1) := by
      simp [consecutivePairs, List.length_zip, List.length_tail]
    rw [distancesOf, List.length_map, h1]
    omega
  · intro h
    refine ⟨?_, ?_⟩
    · simp [avgSpeed, h]
    · simp [maxSpeed, h]

theorem speed_samples_only_positive_dt_witness :
    2 ≤ c1data.length ∧
    (speedsOf c1data =
      ((consecutivePairs c1data).filter (fun p => decide (0 < dtOf p))).map
        (fun p => recDist p.1 p.2 / ((dtOf p : ℚ) : ℝ))
    ∧ (distancesOf c1data).length = c1data.length - 1
    ∧ totalDistance c1data =
        ((consecutivePairs c1data).map (fun p => recDist p.1 p.2)).sum
    ∧ (speedsOf c1data = [] → avgSpeed c1data = 0 ∧ maxSpeed c1data = 0)) :=
  ⟨by decide, speed_samples_only_positive_dt c1data (by decide)⟩

/-- C4 counterexample: a dataset whose frames are numbered 0 and 1 with one
player present in both frames gives participation_score = 2 / 1 = 2, outside
the interval claimed; the dataset is valid (non-negative frame ids, unique
(frame_id, player_id) pairs). -/
theorem participation_score_counterexample :
    participationScore c4data 7 = 2 ∧ ¬ participationScore c4data 7 ≤ 1 := by
  decide

/-- C4 amended: participation_score equals frame_count divided by the
dataset-wide maximum frame id, with a non-positive maximum mapped to 0; it is
non-negative always, but lies in [0,1] only under the extra assumption that
the entity frame count does not exceed the dataset maximum frame id. -/
theorem participation_score_spec (l : List Record) (pid : ℤ)
    (hcount : (frameCount l pid : ℤ) ≤ maxFrameId l) :
    participationScore l pid =
      (if 0 < maxFrameId l then (frameCount l pid : ℚ) / (maxFrameId l : ℚ) else 0)
    ∧ 0 ≤ participationScore l pid ∧ participationScore l pid ≤ 1
    ∧ (maxFrameId l = 0 → participationScore l pid = 0) := by
  refine ⟨rfl, ?_, ?_, ?_⟩
  · rw [participationScore]
    by_cases h : 0 < maxFrameId l
    · rw [if_pos h]
      apply div_nonneg
      · exact_mod_cast Nat.zero_le _
      · exact_mod_cast le_of_lt h
    · rw [if_neg h]
  · rw [participationScore]
    by_cases h : 0 < maxFrameId l
    · rw [if_pos h]
      rw [div_le_one (by exact_mod_cast h)]
      exact_mod_cast hcount
    · rw [if_neg h]
      norm_num
  · intro h
    rw [participationScore, h]
    norm_num

theorem participation_score_spec_witness :
    (frameCount c4wdata 7 : ℤ) ≤ maxFrameId c4wdata ∧
    (0 ≤ participationScore c4wdata 7 ∧ participationScore c4wdata 7 ≤ 1) :=
  ⟨by decide,
    ⟨(participation_score_spec c4wdata 7 (by decide)).2.1,
     (participation_score_spec c4wdata 7 (by decide)).2.2.1⟩⟩

theorem mem_missingColumns {cols : List String} {c : String} :
    c ∈ missingColumns cols ↔ c ∈ requiredColumns ∧ c ∉ cols := by
  rw [missingColumns, List.mem_filter]
  simp

theorem validateColumns_ok_iff {cols : List String} :
    validateColumns cols = Except.ok () ↔ ∀ c ∈ requiredColumns, c ∈ cols := by
  rw [validateColumns]
  by_cases h : missingColumns cols = []
  · rw [if_pos h]
    simp only [true_iff]
    intro c hc
    by_contra hmem
    have : c ∈ missingColumns cols := mem_missingColumns.mpr ⟨hc, hmem⟩
    rw [h] at this
    simp at this
  · rw [if_neg h]
    simp only [reduceCtorEq, false_iff, not_forall]
    rcases List.exists_mem_of_ne_nil _ h with ⟨c, hc⟩
    rcases mem_missingColumns.mp hc with ⟨h1, h2⟩
    exact ⟨c, h1, h2⟩

/-- C6 counterexample: an input carrying exactly the eight columns the claim
calls required, with cx, cy, w, h absent, is rejected, and the error lists
cx, cy, w, h as missing: the code treats them as required, not optional. -/
theorem required_columns_counterexample :
    validateColumns specRequiredColumns = Except.error ["cx", "cy", "w", "h"] := by
  rfl

/-- C6 amended: ingestion requires all twelve columns frame_id, player_id,
timestamp_s, x1, y1, x2, y2, cx, cy, w, h, confidence (cx, cy, w, h
included); validation succeeds exactly when every one of them is present, and
on failure the error lists every missing required column, not just the
first. -/
theorem validate_columns_lists_all_missing (cols : List String) :
    (validateColumns cols = Except.ok () ↔ ∀ c ∈ requiredColumns, c ∈ cols)
    ∧ (∀ c ∈ requiredColumns, c ∉ cols →
        ∃ ms, validateColumns cols = Except.error ms ∧ c ∈ ms) := by
  refine ⟨validateColumns_ok_iff, ?_⟩
  intro c hc hmem
  have hmiss : c ∈ missingColumns cols := mem_missingColumns.mpr ⟨hc, hmem⟩
  have hne : missingColumns cols ≠ [] := by
    intro h0
    rw [h0] at hmiss
    simp at hmiss
  exact ⟨missingColumns cols, by rw [validateColumns, if_neg hne], hmiss⟩

theorem validate_columns_lists_all_missing_witness :
    ("cx" ∈ requiredColumns ∧ "cx" ∉ specRequiredColumns) ∧
    ∃ ms, validateColumns specRequiredColumns = Except.error ms ∧ "cx" ∈ ms :=
  ⟨⟨by decide, by decide⟩,
    (validate_columns_lists_all_missing specRequiredColumns).2 "cx"
      (by decide) (by decide)⟩

/-- C7: the center-derivation branch of process_data (tracking_analysis.py
lines 40-43, guarded by cx or cy being absent) is dead code: every header
passing validation already carries cx and cy, because the required-column
check of lines 32-35 lists them as required; a header without them never
reaches the derivation and is rejected instead. -/
theorem center_derivation_unreachable (cols : List String)
    (h : validateColumns cols = Except.ok ()) :
    "cx" ∈ cols ∧ "cy" ∈ cols := by
  have h1 := validateColumns_ok_iff.mp h
  exact ⟨h1 "cx" (by decide), h1 "cy" (by decide)⟩

theorem center_derivation_unreachable_witness :
    validateColumns requiredColumns = Except.ok () ∧
    ("cx" ∈ requiredColumns ∧ "cy" ∈ requiredColumns) :=
  ⟨by rfl, center_derivation_unreachable requiredColumns (by rfl)⟩

/-- C3 counterexample: with coinciding x extrema the scaling step does not
define the scaled coordinate as 0: it evaluates the quotient with a zero
denominator (NaN in the source, none here), so a division by zero does occur
in the scaling step. -/
theorem scale_degenerate_counterexample :
    scaleCoord 5 5 5 165 = none ∧ scaleCoord 5 5 5 165 ≠ some 0 := by decide

/-- C3 amended: the scaling step carries no degenerate-extrema guard: whenever
the extrema coincide it performs the division with a zero denominator for
every point and produces no scaled value (NaN in the source), and whenever
they differ it returns (c - lo) / (hi - lo) * span with a non-zero
denominator. -/
theorem scale_degenerate_divides_by_zero (c lo hi span : ℚ) :
    scaleCoord c lo lo span = none
    ∧ (hi ≠ lo → scaleCoord c lo hi span = some ((c - lo) / (hi - lo) * span)) := by
  constructor
  · rw [scaleCoord, if_pos (sub_self lo)]
  · intro h
    rw [scaleCoord, if_neg (sub_ne_zero_of_ne h)]

theorem scale_degenerate_divides_by_zero_witness :
    ((6 : ℚ) ≠ 5) ∧ scaleCoord 7 5 6 165 = some ((7 - 5) / (6 - 5) * 165) :=
  ⟨by decide, (scale_degenerate_divides_by_zero 7 5 6 165).2 (by decide)⟩

/-- C5 counterexample: in the simple variant the extrema come from the
requested player only: for the second player of this two-player dataset they
differ from the dataset-wide extrema, and the two players get different
coordinate systems from the same input. -/
theorem extrema_scope_counterexample :
    heatmapExtremaSimple c5data 2 ≠ extremaOf (sortRecords c5data)
    ∧ heatmapExtremaSimple c5data 1 ≠ heatmapExtremaSimple c5data 2 := by decide

/-- C5 amended: the pandas variant computes the extrema from the cx and cy of
the full dataset: they are identical for every requested player and they
bound the cx and the cy of every record of every player; the simple variant
instead computes them from the requested player rows alone, so its coordinate
systems need not agree across players. -/
theorem extrema_dataset_wide_in_pandas_variant (l : List Record) (p q : ℤ) :
    heatmapExtremaFull l p = heatmapExtremaFull l q
    ∧ (∀ r ∈ l, ∀ mn, (heatmapExtremaFull l p).xMin = some mn → mn ≤ r.cx)
    ∧ (∀ r ∈ l, ∀ mx, (heatmapExtremaFull l p).xMax = some mx → r.cx ≤ mx)
    ∧ (∀ r ∈ l, ∀ mn, (heatmapExtremaFull l p).yMin = some mn → mn ≤ r.cy)
    ∧ (∀ r ∈ l, ∀ mx, (heatmapExtremaFull l p).yMax = some mx → r.cy ≤ mx)
    ∧ heatmapExtremaSimple l p =
        extremaOf ((sortRecords l).filter (fun r => r.player_id == p)) := by
  refine ⟨rfl, ?_, ?_, ?_, ?_, rfl⟩
  · intro r hr mn hmn
    have hr2 : r ∈ sortRecords l := (List.mergeSort_perm l recLE).mem_iff.mpr hr
    have hcx : r.cx ∈ (sortRecords l).map (fun r => r.cx) :=
      List.mem_map_of_mem _ hr2
    have := List.le_min?_iff (fun _ _ _ => le_min_iff) hmn (x := mn)
    exact this.mp le_rfl r.cx hcx
  · intro r hr mx hmx
    have hr2 : r ∈ sortRecords l := (List.mergeSort_perm l recLE).mem_iff.mpr hr
    have hcx : r.cx ∈ (sortRecords l).map (fun r => r.cx) :=
      List.mem_map_of_mem _ hr2
    have := List.max?_le_iff (fun _ _ _ => max_le_iff) hmx (x := mx)
    exact this.mp le_rfl r.cx hcx
  · intro r hr mn hmn
    have hr2 : r ∈ sortRecords l := (List.mergeSort_perm l recLE).mem_iff.mpr hr
    have hcy : r.cy ∈ (sortRecords l).map (fun r => r.cy) :=
      List.mem_map_of_mem _ hr2
    have := List.le_min?_iff (fun _ _ _ => le_min_iff) hmn (x := mn)
    exact this.mp le_rfl r.cy hcy
  · intro r hr mx hmx
    have hr2 : r ∈ sortRecords l := (List.mergeSort_perm l recLE).mem_iff.mpr hr
    have hcy : r.cy ∈ (sortRecords l).map (fun r => r.cy) :=
      List.mem_map_of_mem _ hr2
    have := List.max?_le_iff (fun _ _ _ => max_le_iff) hmx (x := mx)
    exact this.mp le_rfl r.cy hcy

theorem extrema_dataset_wide_in_pandas_variant_witness :
    (mkRec 1 1 0 0 0 (9/10) ∈ c5data
      ∧ (heatmapExtremaFull c5data 1).xMin = some 0)
    ∧ (0 : ℚ) ≤ (mkRec 1 1 0 0 0 (9/10)).cx :=
  ⟨⟨by decide, by decide⟩,
    (extrema_dataset_wide_in_pandas_variant c5data 1 2).2.1
      (mkRec 1 1 0 0 0 (9/10)) (by decide) 0 (by decide)⟩

theorem le_foldl_max (l : List ℚ) (a : ℚ) : a ≤ l.foldl max a := by
  induction l generalizing a with
  | nil => exact le_rfl
  | cons b t ih => exact le_trans (le_max_left a b) (ih (max a b))

theorem foldl_max_le_of_mem :
    ∀ (l : List ℚ) (x : ℚ), x ∈ l → ∀ (a : ℚ), x ≤ l.foldl max a
  | [], x, hx, a => by simp at hx
  | b :: t, x, hx, a => by
    rw [List.foldl_cons]
    rcases List.mem_cons.mp hx with h | h
    · rw [h]
      exact le_trans (le_max_right a b) (le_foldl_max t (max a b))
    · exact foldl_max_le_of_mem t x h (max a b)

theorem foldl_max_mem :
    ∀ (l : List ℚ) (a : ℚ), l.foldl max a = a ∨ l.foldl max a ∈ l
  | [], _ => Or.inl rfl
  | b :: t, a => by
    rw [List.foldl_cons]
    rcases foldl_max_mem t (max a b) with h | h
    · rcases max_choice a b with hm | hm
      · exact Or.inl (by rw [h, hm])
      · exact Or.inr (by rw [h, hm]; exact List.mem_cons_self b t)
    · exact Or.inr (List.mem_cons_of_mem b h)

theorem le_gridMax {g : List (List ℚ)} {row : List ℚ} {x : ℚ}
    (hrow : row ∈ g) (hx : x ∈ row) : x ≤ gridMax g :=
  foldl_max_le_of_mem g.flatten x (List.mem_flatten.mpr ⟨row, hrow, hx⟩) 0

theorem gridMax_nonneg (g : List (List ℚ)) : 0 ≤ gridMax g :=
  le_foldl_max g.flatten 0

theorem gridMax_mem_of_pos {g : List (List ℚ)} (h : 0 < gridMax g) :
    ∃ row ∈ g, gridMax g ∈ row := by
  rcases foldl_max_mem g.flatten 0 with h0 | h0
  · rw [gridMax, h0] at h
    exact absurd h (lt_irrefl 0)
  · rcases List.mem_flatten.mp h0 with ⟨row, hrow, hx⟩
    exact ⟨row, hrow, hx⟩

/-- C2: on a grid with non-negative cells (the grids this pipeline smooths are
sums of confidences), the normalization step divides every cell by the grid
maximum when that maximum is positive, leaving every cell inside [0, 1] with
some cell exactly 1; when the maximum is 0 the grid is returned unchanged,
it is entirely zero, and no division happens. -/
theorem normalize_grid_bounds (g : List (List ℚ))
    (hg : ∀ row ∈ g, ∀ x ∈ row, 0 ≤ x) :
    (∀ row ∈ normalizeGrid g, ∀ x ∈ row, 0 ≤ x ∧ x ≤ 1)
    ∧ (0 < gridMax g →
        normalizeGrid g = g.map (fun row => row.map (fun x => x / gridMax g))
        ∧ ∃ row ∈ normalizeGrid g, ∃ x ∈ row, x = 1)
    ∧ (gridMax g = 0 → normalizeGrid g = g ∧ ∀ row ∈ g, ∀ x ∈ row, x = 0) := by
  by_cases hm : 0 < gridMax g
  · refine ⟨?_, fun _ => ⟨by rw [normalizeGrid, if_pos hm], ?_⟩, fun h0 => absurd h0 (by
      intro h0
      rw [h0] at hm
      exact lt_irrefl 0 hm)⟩
    · intro row hrow x hx
      rw [normalizeGrid, if_pos hm] at hrow
      rcases List.mem_map.mp hrow with ⟨row0, hrow0, hmap⟩
      rcases List.mem_map.mp (hmap ▸ hx) with ⟨x0, hx0, hxmap⟩
      have h1 : 0 ≤ x0 := hg row0 hrow0 x0 hx0
      have h2 : x0 ≤ gridMax g := le_gridMax hrow0 hx0
      constructor
      · rw [← hxmap]
        exact div_nonneg h1 (le_of_lt hm)
      · rw [← hxmap]
        exact (div_le_one hm).mpr h2
    · rcases gridMax_mem_of_pos hm with ⟨row, hrow, hx⟩
      refine ⟨row.map (fun x => x / gridMax g), ?_, gridMax g / gridMax g, ?_, ?_⟩
      · rw [normalizeGrid, if_pos hm]
        exact List.mem_map_of_mem _ hrow
      · exact List.mem_map_of_mem _ hx
      · exact div_self (ne_of_gt hm)
  · have hz : gridMax g = 0 := le_antisymm (not_lt.mp hm) (gridMax_nonneg g)
    have hall : ∀ row ∈ g, ∀ x ∈ row, x = 0 := by
      intro row hrow x hx
      exact le_antisymm (hz ▸ le_gridMax hrow hx) (hg row hrow x hx)
    have hid : normalizeGrid g = g := by rw [normalizeGrid, if_neg hm]
    refine ⟨?_, fun hpos => absurd hpos hm, fun _ => ⟨hid, hall⟩⟩
    intro row hrow x hx
    rw [hid] at hrow
    have := hall row hrow x hx
    rw [this]
    exact ⟨le_rfl, zero_le_one⟩

theorem normalize_grid_bounds_witness :
    (∀ row ∈ c2grid, ∀ x ∈ row, 0 ≤ x) ∧
    (∀ row ∈ normalizeGrid c2grid, ∀ x ∈ row, 0 ≤ x ∧ x ≤ 1) :=
  ⟨by decide, (normalize_grid_bounds c2grid (by decide)).1⟩

/-- C8: for an entity with zero records in the dataset, the heatmap request
fails with the no-data error whatever the smoothing function does (so before
extrema, binning or smoothing can be used), the movement-path request fails
with the no-data error, and neither request produces any grid or path
output. -/
theorem missing_entity_fails (smooth : List (List ℚ) → List (List ℚ))
    (l : List Record) (pid : ℤ) (p : HeatmapParams)
    (h : (sortRecords l).filter (fun r => r.player_id == pid) = []) :
    generateHeatmap smooth l pid p = Except.error "No data found for player"
    ∧ movementPath l pid = Except.error "No data found for player"
    ∧ (∀ g, generateHeatmap smooth l pid p ≠ Except.ok g)
    ∧ (∀ path, movementPath l pid ≠ Except.ok path) := by
  have h2 : playerData l pid = [] := by
    rw [playerData, h]
    exact List.mergeSort_nil
  have hh : generateHeatmap smooth l pid p = Except.error "No data found for player" := by
    rw [generateHeatmap]
    simp [h]
  have hm : movementPath l pid = Except.error "No data found for player" := by
    rw [movementPath]
    simp [h2]
  refine ⟨hh, hm, ?_, ?_⟩
  · intro g hg
    rw [hh] at hg
    exact absurd hg (by simp)
  · intro path hp
    rw [hm] at hp
    exact absurd hp (by simp)

theorem missing_entity_fails_witness :
    (sortRecords c8data).filter (fun r => r.player_id == 2) = [] ∧
    (generateHeatmap id c8data 2 ⟨165, 135, 200, 150⟩ =
        Except.error "No data found for player"
      ∧ movementPath c8data 2 = Except.error "No data found for player") :=
  ⟨by decide,
    ⟨(missing_entity_fails id c8data 2 ⟨165, 135, 200, 150⟩ (by decide)).1,
     (missing_entity_fails id c8data 2 ⟨165, 135, 200, 150⟩ (by decide)).2.1⟩⟩

/-- C10: for a player with records, the movement path is the sorted player
rows projected entrywise: frame_id, timestamp and confidence pass through
unchanged while x and y are the int()-truncations of cx and cy; for
non-negative coordinates the output x satisfies x ≤ cx < x + 1, so any
fractional part of the center coordinate is discarded. -/
theorem movement_path_truncates (l : List Record) (pid : ℤ)
    (h : ¬ (playerData l pid).isEmpty) :
    movementPath l pid = Except.ok ((playerData l pid).map pathEntry)
    ∧ (∀ r ∈ playerData l pid,
        (pathEntry r).frame_id = r.frame_id
        ∧ (pathEntry r).timestamp = r.timestamp_s
        ∧ (pathEntry r).confidence = r.confidence
        ∧ (pathEntry r).x = pyInt r.cx ∧ (pathEntry r).y = pyInt r.cy
        ∧ (0 ≤ r.cx →
            ((pathEntry r).x : ℚ) ≤ r.cx ∧ r.cx < ((pathEntry r).x : ℚ) + 1)) := by
  constructor
  · rw [movementPath]
    simp [h]
  · intro r _
    refine ⟨rfl, rfl, rfl, rfl, rfl, ?_⟩
    intro hcx
    have hx : (pathEntry r).x = ⌊r.cx⌋ := by
      rw [pathEntry, pyInt, if_neg (not_lt.mpr hcx)]
    rw [hx]
    exact ⟨Int.floor_le r.cx, Int.lt_floor_add_one r.cx⟩

theorem movement_path_truncates_witness :
    (¬ (playerData c10data 3).isEmpty
      ∧ movementPath c10data 3 = Except.ok ((playerData c10data 3).map pathEntry))
    ∧ (pathEntry c10a).x = 2 ∧ c10a.cx = 5/2 :=
  ⟨⟨by decide, (movement_path_truncates c10data 3 (by decide)).1⟩,
    by decide, by decide⟩
